import Mathlib

/-!
Verification of `src/dnscrypt-proxy/alt_arc4random.c` (the non-OpenBSD
branch, plus the OpenBSD stub of `alt_arc4random_close`).

The C module keeps process-wide mutable state: an alleged-RC4 keystream
(`struct alt_arc4_stream rs`), an `rs_initialized` flag, the pid recorded
by `alt_arc4_stir_if_needed`, a signed byte counter `alt_arc4_count`, and
the entropy-device descriptor `random_data_source_fd`.  The embedding
threads that state explicitly.  Machine bytes are `Fin 256` (8-bit
wraparound is `Fin` addition), `uint32_t` values are `ℕ` with explicit
`% 2 ^ 32` where C arithmetic wraps, `int`/`pid_t` are `ℤ`.

The entropy device is modelled by a stream `ent : ℕ → Fin 256` of the
bytes it would deliver in order, together with a cursor `entPos` in the
state; `safe_read` on a closed descriptor fails without filling the
buffer, so the 128-byte stack buffer then holds indeterminate bytes,
modelled by a second stream `garbage`.  `open` on the device list is
modelled as succeeding (the `abort()` path on total failure is a process
exit and is outside the state machine).  A ghost field `stirCount`
counts completed `alt_arc4_stir` runs; it is written by no other
operation and exists only so that "a reseed happened" is observable.
-/

namespace AltArc4

/-- An 8-bit byte; `Fin 256` addition is arithmetic modulo 256, matching
`uint8_t` wraparound in C. -/
abbrev Byte := Fin 256

/-- The keystream state `struct alt_arc4_stream`: two 8-bit indices and
the 256-entry substitution table `s`. -/
structure Arc4Stream where
  i : Byte
  j : Byte
  s : Byte → Byte

/-- One iteration of the mixing loop in `alt_arc4_addrandom` (C lines
112-118): increment `i`, read `si = s[i]`, step `j` by `si` plus the
input byte `dat[n % datlen]`, then store `s[j]` at `s[i]` and `si` at
`s[j]`.  The buffer access is `List.getD` with default 0; the checked
variant below models the out-of-range access that `datlen == 0` causes. -/
def arc4_addrandom_step (dat : List Byte) (st : Arc4Stream) (n : ℕ) : Arc4Stream :=
  let i' := st.i + 1
  let si := st.s i'
  let j' := st.j + si + dat.getD (n % dat.length) 0
  { i := i', j := j', s := Function.update (Function.update st.s i' (st.s j')) j' si }

/-- `alt_arc4_addrandom` (C lines 105-120): decrement `i`, run the
256-step mixing loop, then set `j := i`. -/
def alt_arc4_addrandom (dat : List Byte) (st : Arc4Stream) : Arc4Stream :=
  let st1 := (List.range 256).foldl (arc4_addrandom_step dat) { st with i := st.i - 1 }
  { st1 with j := st1.i }

/-- `alt_arc4_getbyte` (C lines 158-171): increment `i`, read
`si = s[i]`, step `j` by `si`, read `sj = s[j]`, swap `s[i]` and `s[j]`,
and return the updated table at index `(si + sj) mod 256`. -/
def alt_arc4_getbyte (st : Arc4Stream) : Byte × Arc4Stream :=
  let i' := st.i + 1
  let si := st.s i'
  let j' := st.j + si
  let sj := st.s j'
  let s' := Function.update (Function.update st.s i' sj) j' si
  (s' (si + sj), { i := i', j := j', s := s' })

/-- `alt_arc4_getword` (C lines 173-183): four `getbyte` results OR-ed
together after shifts of 24, 16, 8 and 0 bits, first byte shifted most. -/
def alt_arc4_getword (st : Arc4Stream) : ℕ × Arc4Stream :=
  let p0 := alt_arc4_getbyte st
  let p1 := alt_arc4_getbyte p0.2
  let p2 := alt_arc4_getbyte p1.2
  let p3 := alt_arc4_getbyte p2.2
  ((p0.1.val <<< 24) ||| (p1.1.val <<< 16) ||| (p2.1.val <<< 8) ||| p3.1.val, p3.2)

/-- The description of `getbyte` in the spec's words: the same index
updates, with the table mutation phrased as composing `s` with the
transposition of `i` and `j`, and the output read from the swapped
table. -/
def alt_arc4_getbyteSpec (st : Arc4Stream) : Byte × Arc4Stream :=
  let i' := st.i + 1
  let si := st.s i'
  let j' := st.j + si
  let sj := st.s j'
  let s' := fun k => st.s (Equiv.swap i' j' k)
  (s' (si + sj), { i := i', j := j', s := s' })

/-- The process-wide generator state: the C module's static variables.
`fd_open` is `random_data_source_fd != -1`; `entPos` is the read cursor
into the entropy stream; `stirCount` is the ghost reseed counter. -/
structure Arc4State where
  rs_initialized : Bool
  rs : Arc4Stream
  stir_pid : ℤ
  count : ℤ
  fd_open : Bool
  entPos : ℕ
  stirCount : ℕ

/-- The state at program start: C statics are zero-initialized, so the
flag is false, the table is all zeroes, the counters are zero, and
`random_data_source_fd` is `-1`. -/
def arc4_state0 : Arc4State :=
  { rs_initialized := false, rs := { i := 0, j := 0, s := fun _ => 0 },
    stir_pid := 0, count := 0, fd_open := false, entPos := 0, stirCount := 0 }

/-- `alt_arc4_init` (C lines 86-103): fill `s` with the identity
permutation, zero `i` and `j`, and open the entropy device unless the
descriptor is already open.  The open succeeds in the model (the
`abort()` on total failure terminates the process). -/
def alt_arc4_init (st : Arc4State) : Arc4State :=
  { st with rs := { i := 0, j := 0, s := fun n => n }, fd_open := true }

/-- `safe_read(random_data_source_fd, rnd, 128)`: with the descriptor
open, deliver the next 128 entropy bytes and advance the cursor; with it
closed the read fails and the stack buffer keeps indeterminate contents,
drawn from `garbage`. -/
def arc4_read128 (ent garbage : ℕ → Byte) (st : Arc4State) : List Byte × Arc4State :=
  if st.fd_open then
    ((List.range 128).map fun k => ent (st.entPos + k), { st with entPos := st.entPos + 128 })
  else
    ((List.range 128).map garbage, st)

/-- Apply `alt_arc4_getbyte` to the stream `n` times, discarding the
output bytes (the keystream-discard loop, C lines 141-143). -/
def arc4_dropN : ℕ → Arc4Stream → Arc4Stream
  | 0, rs => rs
  | n + 1, rs => arc4_dropN n (alt_arc4_getbyte rs).2

/-- `alt_arc4_stir` (C lines 122-145): prime the state on first use,
read 128 bytes from the entropy source, mix them in with
`alt_arc4_addrandom`, discard 256 keystream bytes, and arm the counter
with 1600000.  The ghost `stirCount` is incremented. -/
def alt_arc4_stir (ent garbage : ℕ → Byte) (st : Arc4State) : Arc4State :=
  let st1 := if st.rs_initialized then st else { alt_arc4_init st with rs_initialized := true }
  let rd := arc4_read128 ent garbage st1
  let rs2 := arc4_dropN 256 (alt_arc4_addrandom rd.1 rd.2.rs)
  { rd.2 with rs := rs2, count := 1600000, stirCount := rd.2.stirCount + 1 }

/-- `alt_arc4_stir_if_needed` (C lines 147-156): reseed (recording the
current pid first) when the counter is exhausted, the generator is
uninitialized, or the recorded pid differs from the current one. -/
def alt_arc4_stir_if_needed (ent garbage : ℕ → Byte) (pid : ℤ) (st : Arc4State) : Arc4State :=
  if st.count ≤ 0 ∨ st.rs_initialized = false ∨ st.stir_pid ≠ pid then
    alt_arc4_stir ent garbage { st with stir_pid := pid }
  else st

/-- Public `alt_arc4random_stir` (C lines 185-191): unconditional
reseed; the lock macros are no-ops. -/
def alt_arc4random_stir (ent garbage : ℕ → Byte) (st : Arc4State) : Arc4State :=
  alt_arc4_stir ent garbage st

/-- Public `alt_arc4random_close` (C lines 193-206): start from
`ret = -1`; only when the descriptor is not `-1` AND the `close` system
call succeeds (`closeOk`) is the descriptor reset and 0 returned. -/
def alt_arc4random_close (closeOk : Bool) (st : Arc4State) : ℤ × Arc4State :=
  if st.fd_open && closeOk then (0, { st with fd_open := false }) else (-1, st)

/-- The OpenBSD stub of `alt_arc4random_close` (C lines 296-300): the
whole generator is absent and `close` returns 0 unconditionally. -/
def openbsd_alt_arc4random_close : ℤ := 0

/-- Public `alt_arc4random_addrandom` (C lines 208-217): stir first when
uninitialized, then mix the caller's bytes in. -/
def alt_arc4random_addrandom (ent garbage : ℕ → Byte) (dat : List Byte) (st : Arc4State) : Arc4State :=
  let st1 := if st.rs_initialized then st else alt_arc4_stir ent garbage st
  { st1 with rs := alt_arc4_addrandom dat st1.rs }

/-- Public `alt_arc4random` (C lines 219-230): pay 4 bytes off the
counter, maybe reseed, then emit one 32-bit word. -/
def alt_arc4random (ent garbage : ℕ → Byte) (pid : ℤ) (st : Arc4State) : ℕ × Arc4State :=
  let st2 := alt_arc4_stir_if_needed ent garbage pid { st with count := st.count - 4 }
  let w := alt_arc4_getword st2.rs
  (w.1, { st2 with rs := w.2 })

/-- The body of the fill loop in `alt_arc4random_buf` (C lines 238-243):
decrement the counter, stir when it reaches zero or below, then extract
one byte. -/
def arc4_buf_step (ent garbage : ℕ → Byte) (st : Arc4State) : Byte × Arc4State :=
  let st1 := { st with count := st.count - 1 }
  let st2 := if st1.count ≤ 0 then alt_arc4_stir ent garbage st1 else st1
  let b := alt_arc4_getbyte st2.rs
  (b.1, { st2 with rs := b.2 })

/-- The fill loop of `alt_arc4random_buf`, producing the bytes in
generation order (the C code stores them from the high index of the
caller's buffer downward). -/
def arc4_buf_loop (ent garbage : ℕ → Byte) : ℕ → Arc4State → List Byte × Arc4State
  | 0, st => ([], st)
  | n + 1, st =>
    let p := arc4_buf_step ent garbage st
    let rest := arc4_buf_loop ent garbage n p.2
    (p.1 :: rest.1, rest.2)

/-- Public `alt_arc4random_buf` (C lines 232-245): maybe reseed, then
run the per-byte fill loop `n` times. -/
def alt_arc4random_buf (ent garbage : ℕ → Byte) (pid : ℤ) (n : ℕ) (st : Arc4State) : List Byte × Arc4State :=
  arc4_buf_loop ent garbage n (alt_arc4_stir_if_needed ent garbage pid st)

/-- The rejection loop of `alt_arc4random_uniform` (C lines 284-289),
with explicit fuel standing for the number of draws still allowed: draw
a word, accept it when it is at least `min`, else loop.  Fuel exhaustion
returns `none` together with the state reached so far. -/
def arc4_uniform_loop (ent garbage : ℕ → Byte) (pid : ℤ) (uB mn : ℕ) :
    ℕ → Arc4State → Option ℕ × Arc4State
  | 0, st => (none, st)
  | fuel + 1, st =>
    let p := alt_arc4random ent garbage pid st
    if mn ≤ p.1 then (some (p.1 % uB), p.2)
    else arc4_uniform_loop ent garbage pid uB mn fuel p.2

/-- Public `alt_arc4random_uniform` (C lines 257-292), 64-bit build
(`ULONG_MAX > 0xffffffff`), so `min = 0x100000000 % upper_bound`:
return 0 for bounds below 2, else run the rejection loop and reduce the
accepted draw modulo the bound. -/
def alt_arc4random_uniform (ent garbage : ℕ → Byte) (pid : ℤ) (fuel uB : ℕ) (st : Arc4State) :
    Option ℕ × Arc4State :=
  if uB < 2 then (some 0, st)
  else arc4_uniform_loop ent garbage pid uB (2 ^ 32 % uB) fuel st

/-- The 32-bit fallback computation of `min` (C lines 266-276), written
with `ℕ` plus explicit reductions where the C `uint32_t` arithmetic
wraps: for bounds above `0x80000000` take `1 + ~upper_bound`, otherwise
`((0xffffffff - upper_bound * 2) + 1) % upper_bound`. -/
def arc4_uniform_min_fallback (uB : ℕ) : ℕ :=
  if 0x80000000 < uB then (1 + (2 ^ 32 - 1 - uB % 2 ^ 32)) % 2 ^ 32
  else ((0xffffffff - uB * 2 % 2 ^ 32) % 2 ^ 32 + 1) % 2 ^ 32 % uB

/-- One iteration of the mixing loop with the buffer access checked:
`dat[n % datlen]` is looked up with `List.get?`, which fails exactly
when the index is out of range — in particular for `datlen = 0`, where
the C expression `n % datlen` divides by zero. -/
def arc4_addrandom_step_checked (dat : List Byte) (ost : Option Arc4Stream) (n : ℕ) :
    Option Arc4Stream :=
  match ost with
  | none => none
  | some st =>
    match dat.get? (n % dat.length) with
    | none => none
    | some d =>
      let i' := st.i + 1
      let si := st.s i'
      let j' := st.j + si + d
      some { i := i', j := j', s := Function.update (Function.update st.s i' (st.s j')) j' si }

/-- `alt_arc4_addrandom` with every buffer access checked. -/
def alt_arc4_addrandom_checked (dat : List Byte) (st : Arc4Stream) : Option Arc4Stream :=
  ((List.range 256).foldl (arc4_addrandom_step_checked dat) (some { st with i := st.i - 1 })).map
    fun st1 => { st1 with j := st1.i }

/-- Public `alt_arc4random_addrandom` with the buffer accesses of the
mixing loop checked; the function itself performs no guard on `datlen`. -/
def alt_arc4random_addrandom_checked (ent garbage : ℕ → Byte) (dat : List Byte)
    (st : Arc4State) : Option Arc4State :=
  let st1 := if st.rs_initialized then st else alt_arc4_stir ent garbage st
  (alt_arc4_addrandom_checked dat st1.rs).map fun rs' => { st1 with rs := rs' }

/-- One public call, with the per-call arguments the C caller supplies
(`pid` is the value `getpid()` returns during the call, changing across
a fork). -/
inductive Call where
  | stir : Call
  | addrandom (dat : List Byte) : Call
  | random (pid : ℤ) : Call
  | buf (pid : ℤ) (n : ℕ) : Call
  | uniform (pid : ℤ) (fuel uB : ℕ) : Call
  | close (ok : Bool) : Call

/-- Execute one public call for its state effect. -/
def execCall (ent garbage : ℕ → Byte) (st : Arc4State) : Call → Arc4State
  | .stir => alt_arc4random_stir ent garbage st
  | .addrandom dat => alt_arc4random_addrandom ent garbage dat st
  | .random pid => (alt_arc4random ent garbage pid st).2
  | .buf pid n => (alt_arc4random_buf ent garbage pid n st).2
  | .uniform pid fuel uB => (alt_arc4random_uniform ent garbage pid fuel uB st).2
  | .close ok => (alt_arc4random_close ok st).2

/-- Run a sequence of public calls from the start-of-process state. -/
def execCalls (ent garbage : ℕ → Byte) (calls : List Call) : Arc4State :=
  calls.foldl (execCall ent garbage) arc4_state0

/-! Helper lemmas: every table mutation in the module is a swap. -/

/-- Writing `s b` over `s a` and then `s a` over `s b` is composition
with the transposition of `a` and `b`; this is the mutation shape shared
by the `addrandom` loop body and `getbyte`. -/
theorem update_update_eq_comp_swap (s : Byte → Byte) (a b : Byte) :
    Function.update (Function.update s a (s b)) b (s a) = fun k => s (Equiv.swap a b k) := by
  funext k
  rcases eq_or_ne k b with rfl | hkb
  · rw [Function.update_same, Equiv.swap_apply_right]
  · rw [Function.update_noteq hkb]
    rcases eq_or_ne k a with rfl | hka
    · rw [Function.update_same, Equiv.swap_apply_left]
    · rw [Function.update_noteq hka, Equiv.swap_apply_of_ne_of_ne hka hkb]

theorem comp_swap_bijective {s : Byte → Byte} (hs : Function.Bijective s) (a b : Byte) :
    Function.Bijective (fun k => s (Equiv.swap a b k)) :=
  hs.comp (Equiv.swap a b).bijective

theorem arc4_addrandom_step_s (dat : List Byte) (st : Arc4Stream) (n : ℕ) :
    (arc4_addrandom_step dat st n).s =
      fun k => st.s (Equiv.swap (st.i + 1)
        (st.j + st.s (st.i + 1) + dat.getD (n % dat.length) 0) k) := by
  simp only [arc4_addrandom_step]
  exact update_update_eq_comp_swap st.s _ _

theorem arc4_addrandom_step_bij (dat : List Byte) (st : Arc4Stream)
    (hs : Function.Bijective st.s) (n : ℕ) :
    Function.Bijective (arc4_addrandom_step dat st n).s := by
  rw [arc4_addrandom_step_s]
  exact comp_swap_bijective hs _ _

theorem foldl_addrandom_bij (dat : List Byte) (l : List ℕ) (st : Arc4Stream)
    (hs : Function.Bijective st.s) :
    Function.Bijective (l.foldl (arc4_addrandom_step dat) st).s := by
  induction l generalizing st with
  | nil => exact hs
  | cons x xs ih => exact ih (arc4_addrandom_step dat st x) (arc4_addrandom_step_bij dat st hs x)

theorem alt_arc4_addrandom_bij (dat : List Byte) (st : Arc4Stream)
    (hs : Function.Bijective st.s) :
    Function.Bijective (alt_arc4_addrandom dat st).s := by
  simp only [alt_arc4_addrandom]
  exact foldl_addrandom_bij dat (List.range 256) { st with i := st.i - 1 } hs

theorem alt_arc4_getbyte_s (st : Arc4Stream) :
    (alt_arc4_getbyte st).2.s =
      fun k => st.s (Equiv.swap (st.i + 1) (st.j + st.s (st.i + 1)) k) := by
  simp only [alt_arc4_getbyte]
  exact update_update_eq_comp_swap st.s _ _

theorem alt_arc4_getbyte_bij (st : Arc4Stream) (hs : Function.Bijective st.s) :
    Function.Bijective (alt_arc4_getbyte st).2.s := by
  rw [alt_arc4_getbyte_s]
  exact comp_swap_bijective hs _ _

theorem arc4_dropN_bij (n : ℕ) (st : Arc4Stream) (hs : Function.Bijective st.s) :
    Function.Bijective (arc4_dropN n st).s := by
  induction n generalizing st with
  | zero => exact hs
  | succ n ih => exact ih (alt_arc4_getbyte st).2 (alt_arc4_getbyte_bij st hs)

theorem alt_arc4_getword_bij (st : Arc4Stream) (hs : Function.Bijective st.s) :
    Function.Bijective (alt_arc4_getword st).2.s := by
  simp only [alt_arc4_getword]
  exact alt_arc4_getbyte_bij _ (alt_arc4_getbyte_bij _ (alt_arc4_getbyte_bij _ (alt_arc4_getbyte_bij st hs)))

/-! The permutation invariant over the public state machine. -/

/-- The data-model invariant: either the generator was never primed, or
the table is a permutation of the 256 byte values. -/
def Arc4Inv (st : Arc4State) : Prop :=
  st.rs_initialized = false ∨ Function.Bijective st.rs.s

theorem arc4_read128_rs (ent garbage : ℕ → Byte) (st : Arc4State) :
    (arc4_read128 ent garbage st).2.rs = st.rs := by
  simp only [arc4_read128]
  split <;> rfl

theorem arc4_read128_rs_initialized (ent garbage : ℕ → Byte) (st : Arc4State) :
    (arc4_read128 ent garbage st).2.rs_initialized = st.rs_initialized := by
  simp only [arc4_read128]
  split <;> rfl

theorem arc4_read128_stir_pid (ent garbage : ℕ → Byte) (st : Arc4State) :
    (arc4_read128 ent garbage st).2.stir_pid = st.stir_pid := by
  simp only [arc4_read128]
  split <;> rfl

theorem arc4_read128_stirCount (ent garbage : ℕ → Byte) (st : Arc4State) :
    (arc4_read128 ent garbage st).2.stirCount = st.stirCount := by
  simp only [arc4_read128]
  split <;> rfl

theorem arc4_read128_fd_open (ent garbage : ℕ → Byte) (st : Arc4State) :
    (arc4_read128 ent garbage st).2.fd_open = st.fd_open := by
  simp only [arc4_read128]
  split <;> rfl

theorem alt_arc4_stir_bij (ent garbage : ℕ → Byte) {st : Arc4State} (h : Arc4Inv st) :
    Function.Bijective (alt_arc4_stir ent garbage st).rs.s := by
  simp only [alt_arc4_stir]
  apply arc4_dropN_bij
  apply alt_arc4_addrandom_bij
  rw [arc4_read128_rs]
  cases hinit : st.rs_initialized with
  | false =>
    rw [if_neg Bool.false_ne_true]
    exact Function.bijective_id
  | true =>
    rw [if_pos rfl]
    rcases h with h | h
    · rw [hinit] at h; cases h
    · exact h

theorem alt_arc4_stir_initialized (ent garbage : ℕ → Byte) (st : Arc4State) :
    (alt_arc4_stir ent garbage st).rs_initialized = true := by
  simp only [alt_arc4_stir]
  rw [arc4_read128_rs_initialized]
  cases hinit : st.rs_initialized with
  | false => rw [if_neg Bool.false_ne_true]
  | true => rw [if_pos rfl]; exact hinit

theorem alt_arc4_stir_count (ent garbage : ℕ → Byte) (st : Arc4State) :
    (alt_arc4_stir ent garbage st).count = 1600000 := rfl

theorem alt_arc4_stir_stir_pid (ent garbage : ℕ → Byte) (st : Arc4State) :
    (alt_arc4_stir ent garbage st).stir_pid = st.stir_pid := by
  simp only [alt_arc4_stir]
  rw [arc4_read128_stir_pid]
  split <;> rfl

theorem alt_arc4_stir_stirCount (ent garbage : ℕ → Byte) (st : Arc4State) :
    (alt_arc4_stir ent garbage st).stirCount = st.stirCount + 1 := by
  simp only [alt_arc4_stir]
  rw [arc4_read128_stirCount]
  split <;> rfl

theorem alt_arc4_stir_inv (ent garbage : ℕ → Byte) (st : Arc4State) (h : Arc4Inv st) :
    Arc4Inv (alt_arc4_stir ent garbage st) :=
  Or.inr (alt_arc4_stir_bij ent garbage h)

theorem stir_if_needed_inv (ent garbage : ℕ → Byte) (pid : ℤ) (st : Arc4State)
    (h : Arc4Inv st) : Arc4Inv (alt_arc4_stir_if_needed ent garbage pid st) := by
  simp only [alt_arc4_stir_if_needed]
  split
  · exact alt_arc4_stir_inv ent garbage { st with stir_pid := pid } h
  · exact h

/-- Updating only the `rs` field with the post-`getword` stream keeps
the invariant. -/
theorem arc4_getword_state_inv (st2 : Arc4State) (h : Arc4Inv st2) :
    Arc4Inv { st2 with rs := (alt_arc4_getword st2.rs).2 } := by
  rcases h with h | h
  · exact Or.inl h
  · exact Or.inr (alt_arc4_getword_bij st2.rs h)

theorem arc4_getbyte_state_inv (st2 : Arc4State) (h : Arc4Inv st2) :
    Arc4Inv { st2 with rs := (alt_arc4_getbyte st2.rs).2 } := by
  rcases h with h | h
  · exact Or.inl h
  · exact Or.inr (alt_arc4_getbyte_bij st2.rs h)

theorem alt_arc4random_inv (ent garbage : ℕ → Byte) (pid : ℤ) (st : Arc4State)
    (h : Arc4Inv st) : Arc4Inv (alt_arc4random ent garbage pid st).2 :=
  arc4_getword_state_inv
    (alt_arc4_stir_if_needed ent garbage pid { st with count := st.count - 4 })
    (stir_if_needed_inv ent garbage pid { st with count := st.count - 4 } h)

theorem arc4_buf_step_inv (ent garbage : ℕ → Byte) (st : Arc4State)
    (h : Arc4Inv st) : Arc4Inv (arc4_buf_step ent garbage st).2 := by
  have h1 : Arc4Inv { st with count := st.count - 1 } := h
  simp only [arc4_buf_step]
  split
  · exact arc4_getbyte_state_inv (alt_arc4_stir ent garbage { st with count := st.count - 1 })
      (alt_arc4_stir_inv ent garbage { st with count := st.count - 1 } h1)
  · exact arc4_getbyte_state_inv { st with count := st.count - 1 } h1

theorem arc4_buf_loop_inv (ent garbage : ℕ → Byte) (n : ℕ) (st : Arc4State)
    (h : Arc4Inv st) : Arc4Inv (arc4_buf_loop ent garbage n st).2 := by
  induction n generalizing st with
  | zero => exact h
  | succ n ih =>
    exact ih (arc4_buf_step ent garbage st).2 (arc4_buf_step_inv ent garbage st h)

theorem arc4_uniform_loop_inv (ent garbage : ℕ → Byte) (pid : ℤ) (uB mn fuel : ℕ)
    (st : Arc4State) (h : Arc4Inv st) :
    Arc4Inv (arc4_uniform_loop ent garbage pid uB mn fuel st).2 := by
  induction fuel generalizing st with
  | zero => exact h
  | succ fuel ih =>
    simp only [arc4_uniform_loop]
    split
    · exact alt_arc4random_inv ent garbage pid st h
    · exact ih (alt_arc4random ent garbage pid st).2 (alt_arc4random_inv ent garbage pid st h)

theorem alt_arc4random_addrandom_inv (ent garbage : ℕ → Byte) (dat : List Byte)
    (st : Arc4State) (h : Arc4Inv st) :
    Arc4Inv (alt_arc4random_addrandom ent garbage dat st) := by
  simp only [alt_arc4random_addrandom]
  cases hinit : st.rs_initialized with
  | true =>
    rw [if_pos rfl]
    rcases h with h | h
    · rw [hinit] at h; cases h
    · exact Or.inr (alt_arc4_addrandom_bij dat st.rs h)
  | false =>
    rw [if_neg Bool.false_ne_true]
    exact Or.inr (alt_arc4_addrandom_bij dat (alt_arc4_stir ent garbage st).rs
      (alt_arc4_stir_bij ent garbage h))

theorem execCall_inv (ent garbage : ℕ → Byte) (st : Arc4State) (c : Call)
    (h : Arc4Inv st) : Arc4Inv (execCall ent garbage st c) := by
  cases c with
  | stir => exact alt_arc4_stir_inv ent garbage st h
  | addrandom dat => exact alt_arc4random_addrandom_inv ent garbage dat st h
  | random pid => exact alt_arc4random_inv ent garbage pid st h
  | buf pid n =>
    exact arc4_buf_loop_inv ent garbage n (alt_arc4_stir_if_needed ent garbage pid st)
      (stir_if_needed_inv ent garbage pid st h)
  | uniform pid fuel uB =>
    simp only [execCall, alt_arc4random_uniform]
    split
    · exact h
    · exact arc4_uniform_loop_inv ent garbage pid uB (2 ^ 32 % uB) fuel st h
  | close ok =>
    simp only [execCall, alt_arc4random_close]
    split
    · rcases h with h | h
      · exact Or.inl h
      · exact Or.inr h
    · exact h

theorem foldl_execCall_inv (ent garbage : ℕ → Byte) (calls : List Call) (st : Arc4State)
    (h : Arc4Inv st) : Arc4Inv (calls.foldl (execCall ent garbage) st) := by
  induction calls generalizing st with
  | nil => exact h
  | cons c cs ih => exact ih (execCall ent garbage st c) (execCall_inv ent garbage st c h)

theorem execCalls_inv (ent garbage : ℕ → Byte) (calls : List Call) :
    Arc4Inv (execCalls ent garbage calls) :=
  foldl_execCall_inv ent garbage calls arc4_state0 (Or.inl rfl)

/-! Lemmas about `getbyte` and the big-endian word assembly. -/

theorem alt_arc4_getbyte_eq_spec (st : Arc4Stream) :
    alt_arc4_getbyte st = alt_arc4_getbyteSpec st := by
  simp only [alt_arc4_getbyte, alt_arc4_getbyteSpec]
  rw [update_update_eq_comp_swap st.s (st.i + 1) (st.j + st.s (st.i + 1))]

/-- Disjoint-bit OR is addition: a value shifted up by `k` bits OR-ed
with a value below `2 ^ k`. -/
theorem mul_pow_lor_eq_add (k a b : ℕ) (hb : b < 2 ^ k) :
    a * 2 ^ k ||| b = a * 2 ^ k + b := by
  induction k generalizing b with
  | zero =>
    have hb0 : b = 0 := by omega
    subst hb0
    simp
  | succ k ih =>
    have h2 : (2 : ℕ) ^ (k + 1) = 2 ^ k * 2 := pow_succ 2 k
    have hd : b / 2 < 2 ^ k := by omega
    have hbit : a * 2 ^ (k + 1) = Nat.bit false (a * 2 ^ k) := by
      simp only [Nat.bit, cond_false, h2]
      ring
    have hbbit : Nat.bit b.bodd b.div2 = b := Nat.bit_decomp b
    have hm : b % 2 = cond b.bodd 1 0 := Nat.mod_two_of_bodd b
    calc a * 2 ^ (k + 1) ||| b
        = Nat.bit false (a * 2 ^ k) ||| Nat.bit b.bodd b.div2 := by rw [hbit, hbbit]
      _ = Nat.bit (false || b.bodd) (a * 2 ^ k ||| b.div2) :=
          Nat.lor_bit false (a * 2 ^ k) b.bodd b.div2
      _ = Nat.bit b.bodd (a * 2 ^ k + b / 2) := by
          rw [Bool.false_or, Nat.div2_val, ih (b / 2) hd]
      _ = 2 * (a * 2 ^ k + b / 2) + b % 2 := by
          cases hbodd : b.bodd <;> rw [hbodd] at hm <;>
            simp only [Nat.bit, cond_true, cond_false] at hm ⊢ <;> omega
      _ = a * 2 ^ (k + 1) + b := by
          rw [show a * 2 ^ (k + 1) = 2 * (a * 2 ^ k) from by rw [h2]; ring]
          omega

/-- The four-byte big-endian OR-and-shift assembly equals the weighted
sum of the bytes. -/
theorem be32_lor_eq_add (b0 b1 b2 b3 : ℕ) (h0 : b0 < 256) (h1 : b1 < 256)
    (h2 : b2 < 256) (h3 : b3 < 256) :
    (b0 <<< 24) ||| (b1 <<< 16) ||| (b2 <<< 8) ||| b3 =
      b0 * 2 ^ 24 + b1 * 2 ^ 16 + b2 * 2 ^ 8 + b3 := by
  rw [Nat.shiftLeft_eq, Nat.shiftLeft_eq, Nat.shiftLeft_eq]
  rw [mul_pow_lor_eq_add 24 b0 (b1 * 2 ^ 16) (by omega)]
  rw [show b0 * 2 ^ 24 + b1 * 2 ^ 16 = (b0 * 2 ^ 8 + b1) * 2 ^ 16 from by ring]
  rw [mul_pow_lor_eq_add 16 (b0 * 2 ^ 8 + b1) (b2 * 2 ^ 8) (by omega)]
  rw [show (b0 * 2 ^ 8 + b1) * 2 ^ 16 + b2 * 2 ^ 8 =
        (b0 * 2 ^ 16 + b1 * 2 ^ 8 + b2) * 2 ^ 8 from by ring]
  rw [mul_pow_lor_eq_add 8 (b0 * 2 ^ 16 + b1 * 2 ^ 8 + b2) b3 (by omega)]

/-- `getword` produces the big-endian weighted sum of the four
successive `getbyte` outputs, and its final stream state is the one the
fourth `getbyte` leaves. -/
theorem alt_arc4_getword_be (st : Arc4Stream) :
    (alt_arc4_getword st).1 =
      (alt_arc4_getbyte st).1.val * 2 ^ 24 +
      (alt_arc4_getbyte (alt_arc4_getbyte st).2).1.val * 2 ^ 16 +
      (alt_arc4_getbyte (alt_arc4_getbyte (alt_arc4_getbyte st).2).2).1.val * 2 ^ 8 +
      (alt_arc4_getbyte (alt_arc4_getbyte (alt_arc4_getbyte
        (alt_arc4_getbyte st).2).2).2).1.val ∧
    (alt_arc4_getword st).2 =
      (alt_arc4_getbyte (alt_arc4_getbyte (alt_arc4_getbyte
        (alt_arc4_getbyte st).2).2).2).2 := by
  constructor
  · show (alt_arc4_getbyte st).1.val <<< 24 |||
        (alt_arc4_getbyte (alt_arc4_getbyte st).2).1.val <<< 16 |||
        (alt_arc4_getbyte (alt_arc4_getbyte (alt_arc4_getbyte st).2).2).1.val <<< 8 |||
        (alt_arc4_getbyte (alt_arc4_getbyte (alt_arc4_getbyte
          (alt_arc4_getbyte st).2).2).2).1.val = _
    exact be32_lor_eq_add _ _ _ _ (Fin.isLt _) (Fin.isLt _) (Fin.isLt _) (Fin.isLt _)
  · rfl

/-! Further field lemmas about `stir`. -/

theorem arc4_read128_entPos (ent garbage : ℕ → Byte) (st : Arc4State) :
    (arc4_read128 ent garbage st).2.entPos =
      if st.fd_open = true then st.entPos + 128 else st.entPos := by
  simp only [arc4_read128]
  cases hfd : st.fd_open with
  | false => rw [if_neg Bool.false_ne_true, if_neg Bool.false_ne_true]
  | true => rw [if_pos rfl, if_pos rfl]

theorem alt_arc4_stir_fd_open (ent garbage : ℕ → Byte) (st : Arc4State) :
    (alt_arc4_stir ent garbage st).fd_open =
      (if st.rs_initialized then st.fd_open else true) := by
  simp only [alt_arc4_stir]
  rw [arc4_read128_fd_open]
  cases hinit : st.rs_initialized with
  | false => rw [if_neg Bool.false_ne_true, if_neg Bool.false_ne_true]; rfl
  | true => rw [if_pos rfl, if_pos rfl]

theorem alt_arc4_stir_entPos_reads (ent garbage : ℕ → Byte) (st : Arc4State)
    (h : st.fd_open = true ∨ st.rs_initialized = false) :
    (alt_arc4_stir ent garbage st).entPos = st.entPos + 128 := by
  simp only [alt_arc4_stir]
  rw [arc4_read128_entPos]
  cases hinit : st.rs_initialized with
  | false =>
    rw [if_neg Bool.false_ne_true]
    simp only [alt_arc4_init]
    rw [if_pos trivial]
  | true =>
    rw [if_pos rfl]
    rcases h with hfd | hini
    · rw [if_pos hfd]
    · rw [hinit] at hini
      cases hini

theorem alt_arc4_stir_entPos_closed (ent garbage : ℕ → Byte) (st : Arc4State)
    (hinit : st.rs_initialized = true) (hfd : st.fd_open = false) :
    (alt_arc4_stir ent garbage st).entPos = st.entPos := by
  simp only [alt_arc4_stir]
  rw [arc4_read128_entPos]
  rw [if_pos hinit]
  rw [hfd, if_neg Bool.false_ne_true]

/-! The rejection loop, characterized through the sequence of draws. -/

/-- The successive 32-bit words that repeated `alt_arc4random` calls
produce from a starting state, paired with the state after each call. -/
def arc4_draws (ent garbage : ℕ → Byte) (pid : ℤ) (st : Arc4State) : ℕ → ℕ × Arc4State
  | 0 => alt_arc4random ent garbage pid st
  | k + 1 => alt_arc4random ent garbage pid (arc4_draws ent garbage pid st k).2

theorem arc4_draws_shift (ent garbage : ℕ → Byte) (pid : ℤ) (st : Arc4State) (k : ℕ) :
    arc4_draws ent garbage pid st (k + 1) =
      arc4_draws ent garbage pid (alt_arc4random ent garbage pid st).2 k := by
  induction k with
  | zero => rfl
  | succ k ih =>
    show alt_arc4random ent garbage pid (arc4_draws ent garbage pid st (k + 1)).2 =
      arc4_draws ent garbage pid (alt_arc4random ent garbage pid st).2 (k + 1)
    rw [ih]
    rfl

theorem arc4_uniform_loop_some (ent garbage : ℕ → Byte) (pid : ℤ) (uB mn : ℕ) :
    ∀ (fuel : ℕ) (st : Arc4State) (v : ℕ) (st2 : Arc4State),
      arc4_uniform_loop ent garbage pid uB mn fuel st = (some v, st2) →
      ∃ k, (∀ m, m < k → (arc4_draws ent garbage pid st m).1 < mn) ∧
        mn ≤ (arc4_draws ent garbage pid st k).1 ∧
        v = (arc4_draws ent garbage pid st k).1 % uB ∧
        st2 = (arc4_draws ent garbage pid st k).2 := by
  intro fuel
  induction fuel with
  | zero =>
    intro st v st2 h
    simp only [arc4_uniform_loop] at h
    exact absurd (congrArg Prod.fst h) (by simp)
  | succ fuel ih =>
    intro st v st2 h
    simp only [arc4_uniform_loop] at h
    by_cases hacc : mn ≤ (alt_arc4random ent garbage pid st).1
    · rw [if_pos hacc, Prod.mk.injEq] at h
      obtain ⟨h1, h2⟩ := h
      refine ⟨0, ?_, hacc, ?_, ?_⟩
      · intro m hm
        exact absurd hm (Nat.not_lt_zero m)
      · exact (Option.some.inj h1).symm
      · exact h2.symm
    · rw [if_neg hacc] at h
      obtain ⟨k, hlt, hk, hv, hst⟩ := ih (alt_arc4random ent garbage pid st).2 v st2 h
      refine ⟨k + 1, ?_, ?_, ?_, ?_⟩
      · intro m hm
        cases m with
        | zero => exact Nat.lt_of_not_le hacc
        | succ m =>
          rw [arc4_draws_shift]
          exact hlt m (by omega)
      · rw [arc4_draws_shift]
        exact hk
      · rw [arc4_draws_shift]
        exact hv
      · rw [arc4_draws_shift]
        exact hst

/-! The checked mixing loop versus the plain one. -/

theorem arc4_addrandom_step_checked_some (dat : List Byte) (hne : dat ≠ [])
    (st : Arc4Stream) (n : ℕ) :
    arc4_addrandom_step_checked dat (some st) n = some (arc4_addrandom_step dat st n) := by
  have hlen : 0 < dat.length := List.length_pos.mpr hne
  have hidx : n % dat.length < dat.length := Nat.mod_lt n hlen
  obtain ⟨d, hd⟩ : ∃ d, dat.get? (n % dat.length) = some d :=
    ⟨dat.get ⟨_, hidx⟩, List.get?_eq_get hidx⟩
  have hgetD : dat.getD (n % dat.length) 0 = d := by
    rw [List.getD_eq_get?, hd]
    rfl
  simp only [arc4_addrandom_step_checked, hd, arc4_addrandom_step, hgetD]

theorem foldl_step_checked_some (dat : List Byte) (hne : dat ≠ []) (l : List ℕ) :
    ∀ st : Arc4Stream, l.foldl (arc4_addrandom_step_checked dat) (some st) =
      some (l.foldl (arc4_addrandom_step dat) st) := by
  induction l with
  | nil => intro st; rfl
  | cons x xs ih =>
    intro st
    rw [List.foldl_cons, List.foldl_cons, arc4_addrandom_step_checked_some dat hne st x, ih]

theorem alt_arc4_addrandom_checked_some (dat : List Byte) (hne : dat ≠ []) (st : Arc4Stream) :
    alt_arc4_addrandom_checked dat st = some (alt_arc4_addrandom dat st) := by
  simp only [alt_arc4_addrandom_checked, alt_arc4_addrandom]
  rw [foldl_step_checked_some dat hne]
  rfl

theorem arc4_addrandom_step_checked_nil (ost : Option Arc4Stream) (n : ℕ) :
    arc4_addrandom_step_checked [] ost n = none := by
  cases ost with
  | none => rfl
  | some st => rfl

theorem alt_arc4_addrandom_checked_nil (st : Arc4Stream) :
    alt_arc4_addrandom_checked [] st = none := by
  simp only [alt_arc4_addrandom_checked]
  rw [List.range_succ, List.foldl_append]
  simp only [List.foldl_cons, List.foldl_nil]
  rw [arc4_addrandom_step_checked_nil]
  rfl

/-! When the reseed trigger holds, `stir_if_needed` is a `stir`. -/

theorem stir_if_needed_fires (ent garbage : ℕ → Byte) (pid : ℤ) (st : Arc4State)
    (h : st.count ≤ 0 ∨ st.rs_initialized = false ∨ st.stir_pid ≠ pid) :
    alt_arc4_stir_if_needed ent garbage pid st =
      alt_arc4_stir ent garbage { st with stir_pid := pid } := by
  simp only [alt_arc4_stir_if_needed]
  rw [if_pos h]

theorem stir_if_needed_skips (ent garbage : ℕ → Byte) (pid : ℤ) (st : Arc4State)
    (h : ¬(st.count ≤ 0 ∨ st.rs_initialized = false ∨ st.stir_pid ≠ pid)) :
    alt_arc4_stir_if_needed ent garbage pid st = st := by
  simp only [alt_arc4_stir_if_needed]
  rw [if_neg h]

/-! Concrete instances used by counterexamples and witnesses. -/

/-- An all-zero byte stream, standing in for a mocked entropy device and
for indeterminate stack contents in concrete instances. -/
def ent0 : ℕ → Byte := fun _ => 0

/-- A concrete state as `close()` leaves it on a seasoned generator:
initialized, counter far from exhaustion, pid recorded, descriptor
released, one reseed performed so far. -/
def arc4_closed_state : Arc4State :=
  { rs_initialized := true, rs := { i := 0, j := 0, s := fun n => n },
    stir_pid := 7, count := 1000000, fd_open := false, entPos := 0, stirCount := 1 }

/-! Claim C1. -/

/-- C1: counterexample.  The claim says `close()` on a fresh, never-used
generator returns 0; in the code `ret` starts at -1 and the guard
`random_data_source_fd != -1` fails on the fresh state, so -1 is
returned. -/
theorem close_fresh_returns_minus_one_cex :
    (alt_arc4random_close true arc4_state0).1 = -1 ∧ ((-1 : ℤ) ≠ 0) :=
  ⟨rfl, by decide⟩

/-- C1: amended.  `close` returns 0 exactly when the descriptor is open
and the close system call succeeds, and then the stored handle is
released; in every other case — a failing close, but also a fresh
never-used generator with no handle — it returns -1 and leaves the
state, in particular the stored handle, unchanged.  The OpenBSD stub
returns 0 unconditionally. -/
theorem close_contract (ok : Bool) (st : Arc4State) :
    ((alt_arc4random_close ok st).1 = 0 ↔ st.fd_open = true ∧ ok = true) ∧
    (st.fd_open = true ∧ ok = true →
      alt_arc4random_close ok st = (0, { st with fd_open := false })) ∧
    (¬(st.fd_open = true ∧ ok = true) → alt_arc4random_close ok st = (-1, st)) ∧
    openbsd_alt_arc4random_close = 0 := by
  simp only [alt_arc4random_close]
  by_cases h : st.fd_open = true ∧ ok = true
  · have hb : (st.fd_open && ok) = true := by rw [h.1, h.2]; rfl
    rw [if_pos hb]
    exact ⟨⟨fun _ => h, fun _ => rfl⟩, fun _ => rfl, fun hc => absurd h hc, rfl⟩
  · have hb : ¬((st.fd_open && ok) = true) := fun hab => h (by simpa using hab)
    rw [if_neg hb]
    exact ⟨⟨fun he => absurd (show (-1 : ℤ) = 0 from he) (by decide),
      fun hh => absurd hh h⟩, fun hh => absurd hh h, fun _ => rfl, rfl⟩

/-- Witness: the amended close contract applied at the fresh state with
a succeeding close system call. -/
theorem close_contract_witness :
    ¬(arc4_state0.fd_open = true ∧ true = true) ∧
    alt_arc4random_close true arc4_state0 = (-1, arc4_state0) :=
  ⟨by decide, (close_contract true arc4_state0).2.2.1 (by decide)⟩

/-! Claim C2. -/

/-- C2: counterexample.  From a closed-but-initialized state with a
fresh counter and unchanged pid, the next `random()` performs no reseed
(the ghost reseed counter stays 1) and does not reopen the device
(`fd_open` stays false): output is produced while the handle is none,
contradicting the claimed reacquisition. -/
theorem random_after_close_no_reopen_cex :
    (alt_arc4random ent0 ent0 7 arc4_closed_state).2.fd_open = false ∧
    (alt_arc4random ent0 ent0 7 arc4_closed_state).2.stirCount = 1 := by
  have hskip : alt_arc4_stir_if_needed ent0 ent0 7
      { arc4_closed_state with count := arc4_closed_state.count - 4 } =
      { arc4_closed_state with count := arc4_closed_state.count - 4 } :=
    stir_if_needed_skips ent0 ent0 7 _ (by decide)
  constructor
  · show (alt_arc4_stir_if_needed ent0 ent0 7
      { arc4_closed_state with count := arc4_closed_state.count - 4 }).fd_open = false
    rw [hskip]
    rfl
  · show (alt_arc4_stir_if_needed ent0 ent0 7
      { arc4_closed_state with count := arc4_closed_state.count - 4 }).stirCount = 1
    rw [hskip]
    rfl

/-- C2: amended.  `close` releases the descriptor but clears neither
`rs_initialized` nor the counter, so the next randomness-producing call
does NOT reacquire the device: as long as no reseed trigger fires
(generator initialized, counter still positive after its decrement, pid
unchanged), `random()` reseeds nothing and leaves the descriptor
closed; and even an explicit reseed on an initialized state never
reopens the descriptor, because priming — the only place the device is
opened — runs only when the generator is uninitialized. -/
theorem random_after_close_no_reopen (ent garbage : ℕ → Byte) (pid : ℤ) (st st2 : Arc4State)
    (h1 : st.rs_initialized = true) (h2 : 0 < st.count - 4) (h3 : st.stir_pid = pid)
    (h4 : st2.rs_initialized = true) :
    (alt_arc4random ent garbage pid st).2.fd_open = st.fd_open ∧
    (alt_arc4random ent garbage pid st).2.stirCount = st.stirCount ∧
    (alt_arc4_stir ent garbage st2).fd_open = st2.fd_open := by
  have hskip : alt_arc4_stir_if_needed ent garbage pid { st with count := st.count - 4 } =
      { st with count := st.count - 4 } := by
    refine stir_if_needed_skips ent garbage pid _ ?_
    show ¬(st.count - 4 ≤ 0 ∨ st.rs_initialized = false ∨ st.stir_pid ≠ pid)
    rintro (hc | hi | hp)
    · omega
    · rw [h1] at hi; cases hi
    · exact hp h3
  refine ⟨?_, ?_, ?_⟩
  · show (alt_arc4_stir_if_needed ent garbage pid
      { st with count := st.count - 4 }).fd_open = st.fd_open
    rw [hskip]
  · show (alt_arc4_stir_if_needed ent garbage pid
      { st with count := st.count - 4 }).stirCount = st.stirCount
    rw [hskip]

  · rw [alt_arc4_stir_fd_open, if_pos h4]

/-- Witness: the amended no-reacquire theorem applied at the concrete
closed state. -/
theorem random_after_close_no_reopen_witness :
    arc4_closed_state.rs_initialized = true ∧ 0 < arc4_closed_state.count - 4 ∧
    arc4_closed_state.stir_pid = 7 ∧
    (alt_arc4random ent0 ent0 7 arc4_closed_state).2.fd_open = arc4_closed_state.fd_open :=
  ⟨by decide, by decide, by decide,
    (random_after_close_no_reopen ent0 ent0 7 arc4_closed_state arc4_closed_state
      (by decide) (by decide) (by decide) (by decide)).1⟩

/-! Claim C3. -/

/-- C3: counterexample.  The public `stir()` arms the counter but does
not record the pid: from the fresh state (stored pid 0) with current pid
42, after `alt_arc4random_stir` the stored `stir_pid` is still 0 — only
`stir_if_needed` writes `stir_pid`. -/
theorem public_stir_pid_unchanged_cex :
    (alt_arc4random_stir ent0 ent0 arc4_state0).count = 1600000 ∧
    (alt_arc4random_stir ent0 ent0 arc4_state0).stir_pid = 0 ∧
    ((0 : ℤ) ≠ 42) := by
  refine ⟨alt_arc4_stir_count ent0 ent0 arc4_state0, ?_, by decide⟩
  show (alt_arc4_stir ent0 ent0 arc4_state0).stir_pid = 0
  rw [alt_arc4_stir_stir_pid]
  rfl

/-- C3: amended.  Immediately after a reseed triggered through
`stir_if_needed` (the path taken by `random()` and `buf()`), the counter
equals 1600000 and `stir_pid` equals the current pid; after the public
unconditional `stir()` the counter equals 1600000 but `stir_pid` is left
unchanged from before the call. -/
theorem reseed_count_and_pid (ent garbage : ℕ → Byte) (pid : ℤ) (st st2 : Arc4State)
    (h : st.count ≤ 0 ∨ st.rs_initialized = false ∨ st.stir_pid ≠ pid) :
    (alt_arc4_stir_if_needed ent garbage pid st).count = 1600000 ∧
    (alt_arc4_stir_if_needed ent garbage pid st).stir_pid = pid ∧
    (alt_arc4random_stir ent garbage st2).count = 1600000 ∧
    (alt_arc4random_stir ent garbage st2).stir_pid = st2.stir_pid := by
  rw [stir_if_needed_fires ent garbage pid st h]
  refine ⟨alt_arc4_stir_count ent garbage { st with stir_pid := pid }, ?_,
    alt_arc4_stir_count ent garbage st2, alt_arc4_stir_stir_pid ent garbage st2⟩
  rw [alt_arc4_stir_stir_pid]


/-- Witness: the amended reseed bookkeeping applied at the fresh state
with pid 5. -/
theorem reseed_count_and_pid_witness :
    (arc4_state0.count ≤ 0 ∨ arc4_state0.rs_initialized = false ∨
      arc4_state0.stir_pid ≠ 5) ∧
    (alt_arc4_stir_if_needed ent0 ent0 5 arc4_state0).stir_pid = 5 :=
  ⟨by decide, (reseed_count_and_pid ent0 ent0 5 arc4_state0 arc4_state0 (by decide)).2.1⟩

/-! Claim C4. -/

/-- C4: for every sequence of public calls, at every observation point
after initialization the table `s` is a permutation of the 256 byte
values; and every table mutation performed by the addrandom mixing loop
and by getbyte is a swap of two (possibly equal) entries at 8-bit
indices (the swap pair being derived from the counters `i` and `j`,
which as `Fin 256` values always lie in `[0, 255]`). -/
theorem permutation_invariant (ent garbage : ℕ → Byte) (calls : List Call) :
    ((execCalls ent garbage calls).rs_initialized = false ∨
      Function.Bijective (execCalls ent garbage calls).rs.s) ∧
    (∀ (dat : List Byte) (st : Arc4Stream) (n : ℕ), ∃ a b : Byte,
      (arc4_addrandom_step dat st n).s = fun k => st.s (Equiv.swap a b k)) ∧
    (∀ st : Arc4Stream, ∃ a b : Byte,
      (alt_arc4_getbyte st).2.s = fun k => st.s (Equiv.swap a b k)) := by
  refine ⟨execCalls_inv ent garbage calls, ?_, ?_⟩
  · intro dat st n
    exact ⟨_, _, arc4_addrandom_step_s dat st n⟩
  · intro st
    exact ⟨_, _, alt_arc4_getbyte_s st⟩

/-! Claim C5. -/

/-- C5: reseed triggers.  At entry to `buf()`, if the counter is
exhausted, the generator uninitialized, or the pid changed, the fill
loop runs on a freshly stirred state; for `random()` the same trigger is
evaluated after the counter has been decremented by 4, and then the
returned word is extracted from the freshly stirred state (one reseed is
recorded); and inside `buf()`'s loop, whenever the per-byte decrement
brings the counter to zero or below, a reseed runs before that byte is
extracted. -/
theorem reseed_triggers (ent garbage : ℕ → Byte) (pid : ℤ) (n : ℕ)
    (st0 st1 st2 : Arc4State)
    (h0 : st0.count ≤ 0 ∨ st0.rs_initialized = false ∨ st0.stir_pid ≠ pid)
    (h1 : st1.count - 4 ≤ 0 ∨ st1.rs_initialized = false ∨ st1.stir_pid ≠ pid)
    (h2 : st2.count - 1 ≤ 0) :
    alt_arc4random_buf ent garbage pid n st0 =
      arc4_buf_loop ent garbage n (alt_arc4_stir ent garbage { st0 with stir_pid := pid }) ∧
    (alt_arc4random ent garbage pid st1).1 =
      (alt_arc4_getword (alt_arc4_stir ent garbage
        { { st1 with count := st1.count - 4 } with stir_pid := pid }).rs).1 ∧
    (alt_arc4random ent garbage pid st1).2.stirCount = st1.stirCount + 1 ∧
    (arc4_buf_step ent garbage st2).1 =
      (alt_arc4_getbyte (alt_arc4_stir ent garbage
        { st2 with count := st2.count - 1 }).rs).1 ∧
    (arc4_buf_step ent garbage st2).2.stirCount = st2.stirCount + 1 := by
  have hf1 : alt_arc4_stir_if_needed ent garbage pid { st1 with count := st1.count - 4 } =
      alt_arc4_stir ent garbage { { st1 with count := st1.count - 4 } with stir_pid := pid } :=
    stir_if_needed_fires ent garbage pid { st1 with count := st1.count - 4 } h1
  refine ⟨?_, ?_, ?_, ?_, ?_⟩
  · show arc4_buf_loop ent garbage n (alt_arc4_stir_if_needed ent garbage pid st0) = _
    rw [stir_if_needed_fires ent garbage pid st0 h0]
  · show (alt_arc4_getword (alt_arc4_stir_if_needed ent garbage pid
      { st1 with count := st1.count - 4 }).rs).1 = _
    rw [hf1]
  · show (alt_arc4_stir_if_needed ent garbage pid
      { st1 with count := st1.count - 4 }).stirCount = st1.stirCount + 1
    rw [hf1, alt_arc4_stir_stirCount]
  · show (alt_arc4_getbyte (if ({ st2 with count := st2.count - 1 } : Arc4State).count ≤ 0
      then alt_arc4_stir ent garbage { st2 with count := st2.count - 1 }
      else { st2 with count := st2.count - 1 }).rs).1 = _
    rw [if_pos (show ({ st2 with count := st2.count - 1 } : Arc4State).count ≤ 0 from h2)]
  · show (if ({ st2 with count := st2.count - 1 } : Arc4State).count ≤ 0
      then alt_arc4_stir ent garbage { st2 with count := st2.count - 1 }
      else { st2 with count := st2.count - 1 }).stirCount = st2.stirCount + 1
    rw [if_pos (show ({ st2 with count := st2.count - 1 } : Arc4State).count ≤ 0 from h2),
      alt_arc4_stir_stirCount]

/-- Witness: the reseed triggers applied at the fresh state (counter 0,
uninitialized, pid 0) with current pid 3. -/
theorem reseed_triggers_witness :
    (arc4_state0.count ≤ 0 ∨ arc4_state0.rs_initialized = false ∨
      arc4_state0.stir_pid ≠ 3) ∧
    (arc4_state0.count - 4 ≤ 0 ∨ arc4_state0.rs_initialized = false ∨
      arc4_state0.stir_pid ≠ 3) ∧
    (arc4_state0.count - 1 ≤ 0) ∧
    (alt_arc4random ent0 ent0 3 arc4_state0).2.stirCount = arc4_state0.stirCount + 1 :=
  ⟨by decide, by decide, by decide,
    (reseed_triggers ent0 ent0 3 2 arc4_state0 arc4_state0 arc4_state0
      (by decide) (by decide) (by decide)).2.2.1⟩

/-! Claim C6. -/

/-- C6: counterexample.  The claim is universal over reseeds, but after
`close()` on an initialized generator a reseed is still reachable (via
the public `stir()` or counter exhaustion, and nothing reopens the
device): there `safe_read` on descriptor -1 fails, so the reseed
consumes zero bytes from the entropy source — the cursor does not
advance — while the reseed itself completes (ghost counter increments),
refuting "every reseed reads exactly 128 bytes from the entropy
source". -/
theorem stir_after_close_reads_nothing_cex :
    (alt_arc4_stir ent0 ent0 arc4_closed_state).stirCount =
      arc4_closed_state.stirCount + 1 ∧
    (alt_arc4_stir ent0 ent0 arc4_closed_state).entPos = arc4_closed_state.entPos ∧
    arc4_closed_state.entPos = 0 :=
  ⟨alt_arc4_stir_stirCount ent0 ent0 arc4_closed_state,
    alt_arc4_stir_entPos_closed ent0 ent0 arc4_closed_state rfl rfl, rfl⟩

set_option maxRecDepth 4000 in
/-- C6: amended.  Every reseed mixes a 128-byte block into the state via
addrandom, discards exactly 256 keystream bytes by iterating getbyte 256
times before any byte can reach a caller, and arms the counter with
1600000.  The block is read from the entropy source — exactly 128 bytes,
the cursor advancing by 128 — whenever the descriptor is open at entry
or the generator is uninitialized (the first-ever reseed, which opens
the device inside the call); but on a reseed after `close()` of an
initialized generator the read fails and no entropy bytes are consumed
(the block holds indeterminate stack contents). -/
theorem stir_reads_mixes_discards (ent garbage : ℕ → Byte) (st : Arc4State) :
    (st.fd_open = true ∨ st.rs_initialized = false →
      (alt_arc4_stir ent garbage st).entPos = st.entPos + 128) ∧
    (st.rs_initialized = true → st.fd_open = false →
      (alt_arc4_stir ent garbage st).entPos = st.entPos) ∧
    (arc4_read128 ent garbage st).1.length = 128 ∧
    (alt_arc4_stir ent garbage st).count = 1600000 ∧
    (alt_arc4_stir ent garbage st).rs = arc4_dropN 256 (alt_arc4_addrandom
      (arc4_read128 ent garbage (if st.rs_initialized then st
        else { alt_arc4_init st with rs_initialized := true })).1
      (if st.rs_initialized then st.rs
        else ({ i := 0, j := 0, s := fun n => n } : Arc4Stream))) := by
  refine ⟨alt_arc4_stir_entPos_reads ent garbage st,
    alt_arc4_stir_entPos_closed ent garbage st,
    ?_, alt_arc4_stir_count ent garbage st, ?_⟩
  · simp only [arc4_read128]
    split <;> simp
  · show arc4_dropN 256 (alt_arc4_addrandom
      (arc4_read128 ent garbage (if st.rs_initialized then st
        else { alt_arc4_init st with rs_initialized := true })).1
      (arc4_read128 ent garbage (if st.rs_initialized then st
        else { alt_arc4_init st with rs_initialized := true })).2.rs) = _
    rw [arc4_read128_rs]
    cases hinit : st.rs_initialized with
    | false =>
      rw [if_neg Bool.false_ne_true, if_neg Bool.false_ne_true]
      rfl
    | true =>
      rw [if_pos rfl, if_pos rfl]

/-- Witness: the stir anatomy applied at the fresh state — the
first-ever reseed, where the descriptor is closed at entry and opened
inside the call, and 128 entropy bytes are consumed. -/
theorem stir_reads_mixes_discards_witness :
    (arc4_state0.fd_open = true ∨ arc4_state0.rs_initialized = false) ∧
    (alt_arc4_stir ent0 ent0 arc4_state0).entPos = arc4_state0.entPos + 128 :=
  ⟨Or.inr (by decide),
    (stir_reads_mixes_discards ent0 ent0 arc4_state0).1 (Or.inr (by decide))⟩

/-! Claim C7. -/

/-- C7: uniform returns 0 immediately for bounds below 2 (so both
`uniform 0` and `uniform 1` are 0); for every bound of at least 1 any
returned value lies in `[0, U)`; and for bounds of at least 2 the
returned value is `r mod U` where `r` is the first generated 32-bit word
with `r ≥ 2 ^ 32 mod U`. -/
theorem uniform_contract (ent garbage : ℕ → Byte) (pid : ℤ) (fuel uB : ℕ)
    (st : Arc4State) :
    (uB < 2 → alt_arc4random_uniform ent garbage pid fuel uB st = (some 0, st)) ∧
    (1 ≤ uB → ∀ v st2, alt_arc4random_uniform ent garbage pid fuel uB st = (some v, st2) →
      v < uB) ∧
    (2 ≤ uB → ∀ v st2, alt_arc4random_uniform ent garbage pid fuel uB st = (some v, st2) →
      ∃ k, (∀ m, m < k → (arc4_draws ent garbage pid st m).1 < 2 ^ 32 % uB) ∧
        2 ^ 32 % uB ≤ (arc4_draws ent garbage pid st k).1 ∧
        v = (arc4_draws ent garbage pid st k).1 % uB) := by
  refine ⟨?_, ?_, ?_⟩
  · intro h
    simp only [alt_arc4random_uniform, if_pos h]
  · intro hU v st2 h
    by_cases h2 : uB < 2
    · simp only [alt_arc4random_uniform, if_pos h2, Prod.mk.injEq] at h
      have hv : v = 0 := (Option.some.inj h.1).symm
      omega
    · simp only [alt_arc4random_uniform, if_neg h2] at h
      obtain ⟨k, _, _, hv, _⟩ :=
        arc4_uniform_loop_some ent garbage pid uB (2 ^ 32 % uB) fuel st v st2 h
      rw [hv]
      exact Nat.mod_lt _ (by omega)
  · intro hU v st2 h
    simp only [alt_arc4random_uniform, if_neg (by omega : ¬uB < 2)] at h
    obtain ⟨k, hlt, hk, hv, _⟩ :=
      arc4_uniform_loop_some ent garbage pid uB (2 ^ 32 % uB) fuel st v st2 h
    exact ⟨k, hlt, hk, hv⟩

/-- Witness: the uniform contract applied at bound 1, where the result
is 0 without any draw. -/
theorem uniform_contract_witness :
    alt_arc4random_uniform ent0 ent0 0 5 1 arc4_state0 = (some 0, arc4_state0) :=
  (uniform_contract ent0 ent0 0 5 1 arc4_state0).1 (by decide)

/-! Claim C8. -/

/-- C8: the 32-bit fallback of uniform computes `2 ^ 32 mod U` without
64-bit arithmetic: for `2 ≤ U ≤ 2 ^ 31` the wrapped expression
`((0xFFFFFFFF - 2 U) + 1) mod U` equals `2 ^ 32 mod U`, and for
`2 ^ 31 < U < 2 ^ 32` the two's-complement expression `1 + ~U` equals
`2 ^ 32 - U`, which equals `2 ^ 32 mod U`. -/
theorem uniform_min_fallback_correct (uB : ℕ) :
    (2 ≤ uB → uB ≤ 2 ^ 31 → arc4_uniform_min_fallback uB = 2 ^ 32 % uB) ∧
    (2 ^ 31 < uB → uB < 2 ^ 32 →
      arc4_uniform_min_fallback uB = 2 ^ 32 - uB ∧ 2 ^ 32 - uB = 2 ^ 32 % uB) := by
  constructor
  · intro h2 h31
    simp only [arc4_uniform_min_fallback]
    rw [if_neg (by omega)]
    rcases eq_or_lt_of_le h31 with heq | hlt
    · rw [heq]
      norm_num
    · have e1 : uB * 2 % 2 ^ 32 = uB * 2 := Nat.mod_eq_of_lt (by omega)
      rw [e1]
      have e2 : (0xffffffff - uB * 2) % 2 ^ 32 = 0xffffffff - uB * 2 :=
        Nat.mod_eq_of_lt (by omega)
      rw [e2]
      have e3 : (0xffffffff - uB * 2 + 1) % 2 ^ 32 = 2 ^ 32 - uB * 2 := by
        rw [Nat.mod_eq_of_lt (by omega)]
        omega
      rw [e3]
      have e4 := Nat.add_mul_mod_self_right (2 ^ 32 - uB * 2) 2 uB
      rw [show 2 ^ 32 - uB * 2 + 2 * uB = 2 ^ 32 from by omega] at e4
      exact e4.symm
  · intro h31 h32
    constructor
    · simp only [arc4_uniform_min_fallback]
      rw [if_pos (by omega)]
      rw [Nat.mod_eq_of_lt h32, Nat.mod_eq_of_lt (by omega)]
      omega
    · rw [Nat.mod_eq_sub_mod (by omega), Nat.mod_eq_of_lt (by omega)]

/-- Witness: the fallback evaluated through the theorem on both sides of
the `2 ^ 31` boundary. -/
theorem uniform_min_fallback_correct_witness :
    arc4_uniform_min_fallback 6 = 2 ^ 32 % 6 ∧
    arc4_uniform_min_fallback (2 ^ 31 + 1) = 2 ^ 32 - (2 ^ 31 + 1) :=
  ⟨(uniform_min_fallback_correct 6).1 (by decide) (by decide),
    ((uniform_min_fallback_correct (2 ^ 31 + 1)).2 (by decide) (by decide)).1⟩

/-! Claim C9. -/

/-- C9: `getword` returns the four successive `getbyte` outputs
assembled big-endian — the first byte produced carries weight `2 ^ 24` —
and leaves the state of the fourth `getbyte`; and `getbyte` performs
exactly the spec's step: increment `i`, read `si = s[i]`, add `si` to
`j`, read `sj = s[j]`, swap `s[i]` and `s[j]`, and return the swapped
table at `(si + sj) mod 256`. -/
theorem getword_big_endian (st : Arc4Stream) :
    (∀ st2 : Arc4Stream, alt_arc4_getbyte st2 = alt_arc4_getbyteSpec st2) ∧
    (alt_arc4_getword st).1 =
      (alt_arc4_getbyte st).1.val * 2 ^ 24 +
      (alt_arc4_getbyte (alt_arc4_getbyte st).2).1.val * 2 ^ 16 +
      (alt_arc4_getbyte (alt_arc4_getbyte (alt_arc4_getbyte st).2).2).1.val * 2 ^ 8 +
      (alt_arc4_getbyte (alt_arc4_getbyte (alt_arc4_getbyte
        (alt_arc4_getbyte st).2).2).2).1.val ∧
    (alt_arc4_getword st).2 =
      (alt_arc4_getbyte (alt_arc4_getbyte (alt_arc4_getbyte
        (alt_arc4_getbyte st).2).2).2).2 :=
  ⟨alt_arc4_getbyte_eq_spec, (alt_arc4_getword_be st).1, (alt_arc4_getword_be st).2⟩

/-! Claim C10. -/

/-- C10: the addrandom mixing loop indexes the input as
`dat[n mod datlen]`, so it is total exactly under the precondition
`datlen ≥ 1`: then every index lies in `[0, datlen)` and the checked
loop agrees with the plain one; the public `alt_arc4random_addrandom`
has no guard, and with `datlen = 0` it reaches the modulo-by-zero
(out-of-range) access, modelled by the checked evaluation failing. -/
theorem addrandom_datlen_guard (ent garbage : ℕ → Byte) (dat : List Byte)
    (st : Arc4State) (hne : dat ≠ []) :
    alt_arc4random_addrandom_checked ent garbage dat st =
      some (alt_arc4random_addrandom ent garbage dat st) ∧
    (∀ n : ℕ, n % dat.length < dat.length) ∧
    (∀ st2 : Arc4State, alt_arc4random_addrandom_checked ent garbage [] st2 = none) := by
  refine ⟨?_, ?_, ?_⟩
  · simp only [alt_arc4random_addrandom_checked, alt_arc4random_addrandom]
    rw [alt_arc4_addrandom_checked_some dat hne]
    rfl
  · intro n
    exact Nat.mod_lt n (List.length_pos.mpr hne)
  · intro st2
    simp only [alt_arc4random_addrandom_checked]
    rw [alt_arc4_addrandom_checked_nil]
    rfl

/-- Witness: the datlen guard applied with a one-byte buffer. -/
theorem addrandom_datlen_guard_witness :
    (([(0 : Byte)] : List Byte) ≠ []) ∧
    (∀ n : ℕ, n % ([(0 : Byte)] : List Byte).length < ([(0 : Byte)] : List Byte).length) :=
  ⟨by decide, (addrandom_datlen_guard ent0 ent0 [0] arc4_state0 (by decide)).2.1⟩

end AltArc4
